import Mathlib

/-!
Verification development for `spaceship_challenge.cpp`.

The program is a single pipeline: load lines from a file, shuffle them,
classify each line by substring matching against six category keywords,
and print the resulting ship.  We embed the program shallowly:

* a C++ `std::string` is modelled as `Str := List Char`;
* `std::string::find(needle) != npos` is modelled by `hasSub`;
* the `Spaceship` constructor is modelled by `Spaceship.build`, acting on
  the already-shuffled list (the `std::shuffle` step produces an arbitrary
  permutation from a nondeterministic seed, so theorems about the input
  file quantify over permutations where that matters);
* `Spaceship::Print` is modelled by `Spaceship.Print`, returning the
  characters written to standard output together with a flag recording
  whether the `catch` handler ran (i.e. a diagnostic went to stderr);
* `fetch_parts_list` and `main` are modelled over an abstract file-system
  state record (`FileSys`).

Two implementation-defined behaviours of the toolchain the source pins
(the file refuses to compile on anything but GCC 10+, hence libstdc++)
are part of the model:

1.  Iteration order of the `std::unordered_map` of keywords.  The map is
    built from the initializer list Engine, Fuselage, Cabin, Wings,
    Armor, Weapon; `std::hash` of the `uint8_t` enum values 0..5 places
    the six nodes in six distinct buckets (bucket count 7), and
    libstdc++ splices each node whose bucket is fresh at the front of
    the global node list.  Iteration therefore visits the keywords in
    reverse insertion order: Weapon, Armor, Wings, Cabin, Fuselage,
    Engine.  `part_types_list` below is written in that iteration order.

2.  Moved-from strings.  The constructor does
    `weaponParts.push_back(std::move(part_str))`,
    `_smallWings = std::move(part_str)` and
    `_parts[...] = std::move(part_str)`; libstdc++ leaves the source of
    a string move constructor / move assignment empty.  Hence after the
    first keyword match consumes a line, the remaining keyword tests run
    against the empty string and cannot match.  The single branch that
    does NOT consume the line is a Wings match when both wing slots are
    already occupied: the line then survives to the later keywords.
-/

/-- A C++ `std::string`, modelled as its character list. -/
abbrev Str : Type := List Char

/-- Helper for `hasSub`: does `needle` occur at the very start of `hay`
(character-by-character, case-sensitive, as `std::char_traits` compares)? -/
def leadsWith : Str → Str → Bool
  | [], _ => true
  | _ :: _, [] => false
  | a :: n, b :: h => if a = b then leadsWith n h else false

/-- Model of `hay.find(needle) != std::string::npos`: `needle` occurs as a
contiguous substring of `hay` (an empty needle is found at position 0). -/
def hasSub : Str → Str → Bool
  | [], needle => needle.isEmpty
  | b :: t, needle => leadsWith needle (b :: t) || hasSub t needle

/-- The `Part_Type` enumeration of the source. -/
inductive Part_Type : Type where
  | Engine
  | Fuselage
  | Cabin
  | Wings
  | Armor
  | Weapon
deriving DecidableEq

/-- Keyword "engine". -/
def engineKw : Str := "engine".data
/-- Keyword "fuselage". -/
def fuselageKw : Str := "fuselage".data
/-- Keyword "cabin". -/
def cabinKw : Str := "cabin".data
/-- Keyword "wings". -/
def wingsKw : Str := "wings".data
/-- Keyword "armor". -/
def armorKw : Str := "armor".data
/-- Keyword "weapon". -/
def weaponKw : Str := "weapon".data

/-- The keyword map `part_types_list`, listed in its libstdc++ iteration
order (reverse insertion order, see the header comment): Weapon, Armor,
Wings, Cabin, Fuselage, Engine. -/
def part_types_list : List (Part_Type × Str) :=
  [(Part_Type.Weapon, weaponKw), (Part_Type.Armor, armorKw), (Part_Type.Wings, wingsKw),
   (Part_Type.Cabin, cabinKw), (Part_Type.Fuselage, fuselageKw), (Part_Type.Engine, engineKw)]

/-- The constructor state while the line loop runs: the four single-valued
slots of the `_parts` map (absent key modelled as `none`), the two wing
members, and the local `weaponParts` vector. -/
structure BuildSt : Type where
  engine : Option Str
  fuselage : Option Str
  cabin : Option Str
  armor : Option Str
  smallWings : Str
  largeWings : Str
  weaponParts : List Str
deriving DecidableEq

/-- Initial constructor state: `_parts` empty, wing strings empty, no
collected weapons. -/
def initSt : BuildSt :=
  { engine := none, fuselage := none, cabin := none, armor := none,
    smallWings := [], largeWings := [], weaponParts := [] }

/-- Content of the `_parts` hash map under a key.  Only the four
single-valued categories are ever inserted; Wings and Weapon keys are
never present. -/
def getPart (st : BuildSt) : Part_Type → Option Str
  | Part_Type.Engine => st.engine
  | Part_Type.Fuselage => st.fuselage
  | Part_Type.Cabin => st.cabin
  | Part_Type.Armor => st.armor
  | Part_Type.Wings => none
  | Part_Type.Weapon => none

/-- Model of `_parts[type_str.first] = std::move(part_str)` (the final
`else` branch, reached only for the four single-valued categories). -/
def setPart (st : BuildSt) (t : Part_Type) (s : Str) : BuildSt :=
  match t with
  | Part_Type.Engine => { st with engine := some s }
  | Part_Type.Fuselage => { st with fuselage := some s }
  | Part_Type.Cabin => { st with cabin := some s }
  | Part_Type.Armor => { st with armor := some s }
  | Part_Type.Wings => st
  | Part_Type.Weapon => st

/-- One iteration of the inner keyword loop.  The pair carries the ship
state and the current value of `part_str`; a consuming branch moves the
line out, leaving `part_str` empty (libstdc++ moved-from string). -/
def stepKeyword (acc : BuildSt × Str) (type_str : Part_Type × Str) : BuildSt × Str :=
  let st := acc.1
  let part_str := acc.2
  if hasSub part_str type_str.2 then
    match type_str.1 with
    | Part_Type.Weapon => ({ st with weaponParts := st.weaponParts ++ [part_str] }, [])
    | Part_Type.Wings =>
      if st.smallWings.isEmpty then ({ st with smallWings := part_str }, [])
      else if st.largeWings.isEmpty then ({ st with largeWings := part_str }, [])
      else (st, part_str)
    | t => (setPart st t part_str, [])
  else (st, part_str)

/-- The inner loop of the constructor: run every keyword of
`part_types_list` over one line, returning the updated ship state. -/
def processLine (st : BuildSt) (part_str : Str) : BuildSt :=
  (part_types_list.foldl stepKeyword (st, part_str)).1

/-- The built ship: the four single-valued slots of `_parts`, the two
wing members and the fixed `std::array<std::string, 4>` of weapons. -/
structure Spaceship : Type where
  engine : Option Str
  fuselage : Option Str
  cabin : Option Str
  armor : Option Str
  smallWings : Str
  largeWings : Str
  weapons : List Str
deriving DecidableEq

/-- Model of the epilogue `std::copy_n(..., std::min(4, weaponParts.size()),
_weapons.begin())`: the first four collected weapons land in the array,
the remaining array entries keep their default empty value. -/
def finalizeShip (st : BuildSt) : Spaceship :=
  { engine := st.engine, fuselage := st.fuselage, cabin := st.cabin, armor := st.armor,
    smallWings := st.smallWings, largeWings := st.largeWings,
    weapons := st.weaponParts.take 4 ++ List.replicate (4 - st.weaponParts.length) [] }

/-- Model of the constructor `Spaceship::Spaceship(std::vector<std::string>&&)`,
acting on the post-shuffle order of the lines. -/
def Spaceship.build (part_list : List Str) : Spaceship :=
  finalizeShip (part_list.foldl processLine initSt)

/-- Result of `Spaceship::Print`: the characters written to standard
output, and whether the catch handler ran (writing an exception
diagnostic to standard error). -/
structure PrintResult : Type where
  out : Str
  caught : Bool
deriving DecidableEq

/-- The weapons loop of `Print`: every entry but the last of the fixed
array followed by a comma and space, then `_weapons.back()` and the
closing bracket. -/
def weaponsRender (ws : List Str) : Str :=
  List.flatten ((ws.take (ws.length - 1)).map (fun w => w ++ ", ".data)) ++
    ws.getLastD [] ++ "]\n".data

/-- Model of `Spaceship::Print`.  The stream inserts run left to right;
`_parts.at` on an absent key throws `std::out_of_range`, which the
handler catches, so output stops right after the offending label and
`caught` records the diagnostic on standard error. -/
def Spaceship.Print (ship : Spaceship) : PrintResult :=
  let o1 := "\nThis ship is loaded with:\n  Engine: ".data
  match ship.engine with
  | none => { out := o1, caught := true }
  | some eng =>
    let o2 := o1 ++ eng ++ "\n  Fuselage: ".data
    match ship.fuselage with
    | none => { out := o2, caught := true }
    | some fus =>
      let o3 := o2 ++ fus ++ "\n  Cabin: ".data
      match ship.cabin with
      | none => { out := o3, caught := true }
      | some cab =>
        let o4 := o3 ++ cab ++ "\n  Armor: ".data
        match ship.armor with
        | none => { out := o4, caught := true }
        | some arm =>
          let o5 := o4 ++ arm ++ "\n  Wings:\n    (small): ".data ++ ship.smallWings ++
            "\n    (large): ".data ++ ship.largeWings ++ "\n  Weapons: [".data ++
            weaponsRender ship.weapons
          { out := o5, caught := false }

/-- Abstract state of the file system at the path the program is given. -/
structure FileSys : Type where
  pathExists : Bool
  canOpen : Bool
  lines : List Str
deriving DecidableEq

/-- Model of the `fetch_parts_list` lambda: existence check, openability
check, then the lines of the file in file order (the informational
stdout message is not part of the data contract). -/
def fetch_parts_list (fs : FileSys) (fname : Str) : Except Str (List Str) :=
  if fs.pathExists = false then
    Except.error ("file: '".data ++ fname ++ "' does not exist!".data)
  else if fs.canOpen = false then
    Except.error ("file: '".data ++ fname ++ "' could not be opened!".data)
  else
    Except.ok fs.lines

/-- Observable outcome of one program run: the process exit code and the
characters written to standard error. -/
structure RunResult : Type where
  exitCode : Nat
  errOut : Str
deriving DecidableEq

/-- Model of `main` on a given parts-file path: any exception from loading
is caught, printed to standard error as an `Exception: "..."` line, and
the process exits with code 1; otherwise the ship is built from a
shuffled order of the lines (`shuffle` abstracts the nondeterministic
`std::shuffle`) and printed, exiting with code 0.  On the success path
the only possible stderr output is the diagnostic `Print` writes when
`_parts.at` throws; libstdc++ gives that `std::out_of_range` the message
`_Map_base::at`. -/
def mainRun (fs : FileSys) (fname : Str) (shuffle : List Str → List Str) : RunResult :=
  match fetch_parts_list fs fname with
  | Except.error msg =>
    { exitCode := 1, errOut := "Exception: \"".data ++ msg ++ "\"\n".data }
  | Except.ok parts =>
    let pr := (Spaceship.build (shuffle parts)).Print
    { exitCode := 0,
      errOut := if pr.caught then "Exception: \"_Map_base::at\"\n".data else [] }

/-- First matching category of a line, in keyword iteration order, with
the Wings keyword skipped.  When no line of the input matches "wings"
(or when wing-matching lines match nothing else), this is exactly the
category that consumes the line, independent of surrounding lines. -/
def routeNoWings (s : Str) : Option Part_Type :=
  if hasSub s weaponKw then some Part_Type.Weapon
  else if hasSub s armorKw then some Part_Type.Armor
  else if hasSub s cabinKw then some Part_Type.Cabin
  else if hasSub s fuselageKw then some Part_Type.Fuselage
  else if hasSub s engineKw then some Part_Type.Engine
  else none

/-- Reference recursion for the wing slots: fill the small slot first,
then the large one, then drop. -/
def wingsFill : Str × Str → List Str → Str × Str
  | p, [] => p
  | (sm, lg), s :: t =>
    if sm.isEmpty then wingsFill (s, lg) t
    else if lg.isEmpty then wingsFill (sm, s) t
    else wingsFill (sm, lg) t

/-- A line is benign for wing reasoning when, if it matches the "wings"
keyword at all, it matches no other keyword (so it cannot be consumed by
the Weapon or Armor tests that run before Wings, nor fall through to
Cabin, Fuselage or Engine when both wing slots are full). -/
def wingsOnlyMatch (s : Str) : Prop :=
  hasSub s wingsKw = true →
    (hasSub s weaponKw = false ∧ hasSub s armorKw = false ∧ hasSub s cabinKw = false ∧
     hasSub s fuselageKw = false ∧ hasSub s engineKw = false)

instance (s : Str) : Decidable (wingsOnlyMatch s) := by
  unfold wingsOnlyMatch; infer_instance

/-! Basic lemmas about substring search. -/

/-- An empty needle is found in any haystack (`find` returns 0). -/
theorem hasSub_nil_needle (hay : Str) : hasSub hay [] = true := by
  cases hay <;> simp [hasSub, leadsWith]

/-- Searching in the empty haystack only finds the empty needle. -/
theorem hasSub_nil_hay (needle : Str) : hasSub [] needle = needle.isEmpty := rfl

/-- A list is a leading segment of itself followed by anything. -/
theorem leadsWith_self_append (n y : Str) : leadsWith n (n ++ y) = true := by
  induction n with
  | nil => simp [leadsWith]
  | cons a m ih => simp [leadsWith, ih]

/-- A needle embedded between two contexts is found. -/
theorem hasSub_mid (x n y : Str) : hasSub (x ++ n ++ y) n = true := by
  induction x with
  | nil =>
    cases n with
    | nil => simpa using hasSub_nil_needle y
    | cons a m =>
      have h := leadsWith_self_append (a :: m) y
      simp only [List.cons_append] at h
      simp [hasSub, h]
  | cons c x ih =>
    have ih2 : hasSub (x ++ (n ++ y)) n = true := by
      rw [← List.append_assoc]; exact ih
    simp [hasSub, ih2]

/-! Characterisation of one pass of the inner keyword loop. -/

/-- Once a line has been moved from (is empty), the remaining keyword
iterations leave everything unchanged: no nonempty keyword matches the
empty string. -/
theorem foldl_consumed (kws : List (Part_Type × Str)) (st : BuildSt)
    (h : ∀ kw ∈ kws, kw.2.isEmpty = false) :
    kws.foldl stepKeyword (st, ([] : Str)) = (st, []) := by
  induction kws generalizing st with
  | nil => rfl
  | cons kw t ih =>
    have hkw : kw.2.isEmpty = false := h kw (by simp)
    have hstep : stepKeyword (st, ([] : Str)) kw = (st, []) := by
      simp [stepKeyword, hasSub_nil_hay, hkw]
    rw [List.foldl_cons, hstep]
    exact ih st (fun k hk => h k (by simp [hk]))

/-- A line matching none of the keywords passes through untouched. -/
theorem foldl_no_match (kws : List (Part_Type × Str)) (st : BuildSt) (s : Str)
    (h : ∀ kw ∈ kws, hasSub s kw.2 = false) :
    kws.foldl stepKeyword (st, s) = (st, s) := by
  induction kws generalizing st with
  | nil => rfl
  | cons kw t ih =>
    have hstep : stepKeyword (st, s) kw = (st, s) := by
      simp [stepKeyword, h kw (by simp)]
    rw [List.foldl_cons, hstep]
    exact ih st (fun k hk => h k (by simp [hk]))

/-- The suffix of the keyword loop after Weapon, Armor and Wings. -/
theorem processTail (st : BuildSt) (s : Str) :
    ([(Part_Type.Cabin, cabinKw), (Part_Type.Fuselage, fuselageKw),
      (Part_Type.Engine, engineKw)].foldl stepKeyword (st, s)).1 =
      if hasSub s cabinKw then { st with cabin := some s }
      else if hasSub s fuselageKw then { st with fuselage := some s }
      else if hasSub s engineKw then { st with engine := some s }
      else st := by
  rw [List.foldl_cons]
  cases hcab : hasSub s cabinKw with
  | true =>
    rw [show stepKeyword (st, s) (Part_Type.Cabin, cabinKw)
        = ({ st with cabin := some s }, ([] : Str)) by simp [stepKeyword, hcab, setPart]]
    rw [foldl_consumed _ _ (by decide)]
    simp [hcab]
  | false =>
    rw [show stepKeyword (st, s) (Part_Type.Cabin, cabinKw) = (st, s) by
      simp [stepKeyword, hcab]]
    rw [List.foldl_cons]
    cases hfus : hasSub s fuselageKw with
    | true =>
      rw [show stepKeyword (st, s) (Part_Type.Fuselage, fuselageKw)
          = ({ st with fuselage := some s }, ([] : Str)) by simp [stepKeyword, hfus, setPart]]
      rw [foldl_consumed _ _ (by decide)]
      simp [hcab, hfus]
    | false =>
      rw [show stepKeyword (st, s) (Part_Type.Fuselage, fuselageKw) = (st, s) by
        simp [stepKeyword, hfus]]
      rw [List.foldl_cons]
      cases heng : hasSub s engineKw with
      | true =>
        rw [show stepKeyword (st, s) (Part_Type.Engine, engineKw)
            = ({ st with engine := some s }, ([] : Str)) by simp [stepKeyword, heng, setPart]]
        rw [List.foldl_nil]
        simp [hcab, hfus, heng]
      | false =>
        rw [show stepKeyword (st, s) (Part_Type.Engine, engineKw) = (st, s) by
          simp [stepKeyword, heng]]
        rw [List.foldl_nil]
        simp [hcab, hfus, heng]

/-- Full characterisation of processing one line: the line is filed into
the first matching keyword of the iteration order and thereby consumed;
the only non-consuming match is Wings with both wing slots occupied, in
which case the line falls through to the later keywords. -/
theorem processLine_eq (st : BuildSt) (s : Str) :
    processLine st s =
      if hasSub s weaponKw then { st with weaponParts := st.weaponParts ++ [s] }
      else if hasSub s armorKw then { st with armor := some s }
      else if hasSub s wingsKw && st.smallWings.isEmpty then { st with smallWings := s }
      else if hasSub s wingsKw && st.largeWings.isEmpty then { st with largeWings := s }
      else if hasSub s cabinKw then { st with cabin := some s }
      else if hasSub s fuselageKw then { st with fuselage := some s }
      else if hasSub s engineKw then { st with engine := some s }
      else st := by
  unfold processLine part_types_list
  rw [List.foldl_cons]
  cases hweap : hasSub s weaponKw with
  | true =>
    rw [show stepKeyword (st, s) (Part_Type.Weapon, weaponKw)
        = ({ st with weaponParts := st.weaponParts ++ [s] }, ([] : Str)) by
      simp [stepKeyword, hweap]]
    rw [foldl_consumed _ _ (by decide)]
    simp [hweap]
  | false =>
    rw [show stepKeyword (st, s) (Part_Type.Weapon, weaponKw) = (st, s) by
      simp [stepKeyword, hweap]]
    rw [List.foldl_cons]
    cases harm : hasSub s armorKw with
    | true =>
      rw [show stepKeyword (st, s) (Part_Type.Armor, armorKw)
          = ({ st with armor := some s }, ([] : Str)) by simp [stepKeyword, harm, setPart]]
      rw [foldl_consumed _ _ (by decide)]
      simp [hweap, harm]
    | false =>
      rw [show stepKeyword (st, s) (Part_Type.Armor, armorKw) = (st, s) by
        simp [stepKeyword, harm]]
      rw [List.foldl_cons]
      cases hwings : hasSub s wingsKw with
      | true =>
        cases hsm : st.smallWings.isEmpty with
        | true =>
          rw [show stepKeyword (st, s) (Part_Type.Wings, wingsKw)
              = ({ st with smallWings := s }, ([] : Str)) by simp [stepKeyword, hwings, hsm]]
          rw [foldl_consumed _ _ (by decide)]
          simp [hweap, harm, hwings, hsm]
        | false =>
          cases hlg : st.largeWings.isEmpty with
          | true =>
            rw [show stepKeyword (st, s) (Part_Type.Wings, wingsKw)
                = ({ st with largeWings := s }, ([] : Str)) by
              simp [stepKeyword, hwings, hsm, hlg]]
            rw [foldl_consumed _ _ (by decide)]
            simp [hweap, harm, hwings, hsm, hlg]
          | false =>
            rw [show stepKeyword (st, s) (Part_Type.Wings, wingsKw) = (st, s) by
              simp [stepKeyword, hwings, hsm, hlg]]
            rw [processTail]
            simp [hweap, harm, hwings, hsm, hlg]
      | false =>
        rw [show stepKeyword (st, s) (Part_Type.Wings, wingsKw) = (st, s) by
          simp [stepKeyword, hwings]]
        rw [processTail]
        simp [hweap, harm, hwings]

/-! Field-by-field behaviour of one line. -/

/-- The collected weapons after one line: any line containing "weapon" is
appended (the Weapon keyword is the first one tested, so it always wins),
and no other branch touches the collection. -/
theorem weaponParts_processLine (st : BuildSt) (s : Str) :
    (processLine st s).weaponParts =
      st.weaponParts ++ (if hasSub s weaponKw then [s] else []) := by
  rw [processLine_eq]
  split_ifs <;> simp

/-- The single-valued slots after one line, provided the line is benign
for wings: the slot named by `routeNoWings` is overwritten, the others
keep their value. -/
theorem getPart_processLine (st : BuildSt) (s : Str) (hs : wingsOnlyMatch s) (c : Part_Type)
    (hc : c = Part_Type.Engine ∨ c = Part_Type.Fuselage ∨ c = Part_Type.Cabin ∨
      c = Part_Type.Armor) :
    getPart (processLine st s) c =
      if routeNoWings s = some c then some s else getPart st c := by
  unfold wingsOnlyMatch at hs
  rcases hc with rfl | rfl | rfl | rfl <;>
    (rw [processLine_eq]; unfold routeNoWings; split_ifs <;> simp_all [getPart, setPart])

/-- The wing slots after one line, provided the line is benign for wings. -/
theorem wings_processLine (st : BuildSt) (s : Str) (hs : wingsOnlyMatch s) :
    (processLine st s).smallWings =
      (if hasSub s wingsKw then (if st.smallWings.isEmpty then s else st.smallWings)
       else st.smallWings) ∧
    (processLine st s).largeWings =
      (if hasSub s wingsKw then
        (if st.smallWings.isEmpty then st.largeWings
         else if st.largeWings.isEmpty then s else st.largeWings)
       else st.largeWings) := by
  unfold wingsOnlyMatch at hs
  rw [processLine_eq]
  constructor <;> (split_ifs <;> simp_all)

/-! Whole-loop characterisations (folds over the line list). -/

/-- After the whole line loop, the collected weapons are exactly the
lines containing "weapon", in encounter order. -/
theorem weaponParts_foldl (l : List Str) (st : BuildSt) :
    (l.foldl processLine st).weaponParts =
      st.weaponParts ++ l.filter (fun s => hasSub s weaponKw) := by
  induction l generalizing st with
  | nil => simp
  | cons s t ih =>
    rw [List.foldl_cons, ih, weaponParts_processLine]
    cases h : hasSub s weaponKw with
    | true => simp [List.filter_cons, h]
    | false => simp [List.filter_cons, h]

/-- After the whole line loop, a single-valued slot holds the last line
routed to it (lines benign for wings assumed). -/
theorem getPart_foldl (l : List Str) (st : BuildSt) (hs : ∀ s ∈ l, wingsOnlyMatch s)
    (c : Part_Type)
    (hc : c = Part_Type.Engine ∨ c = Part_Type.Fuselage ∨ c = Part_Type.Cabin ∨
      c = Part_Type.Armor) :
    getPart (l.foldl processLine st) c =
      l.foldl (fun a s => if routeNoWings s = some c then some s else a) (getPart st c) := by
  induction l generalizing st with
  | nil => rfl
  | cons s t ih =>
    rw [List.foldl_cons, List.foldl_cons, ih _ (fun x hx => hs x (by simp [hx])),
      getPart_processLine st s (hs s (by simp)) c hc]

/-- After the whole line loop, the wing slots are obtained by filling
small-then-large from the wing-matching lines in encounter order. -/
theorem wings_foldl (l : List Str) (st : BuildSt) (hs : ∀ s ∈ l, wingsOnlyMatch s) :
    ((l.foldl processLine st).smallWings, (l.foldl processLine st).largeWings) =
      wingsFill (st.smallWings, st.largeWings) (l.filter (fun s => hasSub s wingsKw)) := by
  induction l generalizing st with
  | nil => rfl
  | cons s t ih =>
    rw [List.foldl_cons, ih _ (fun x hx => hs x (by simp [hx]))]
    obtain ⟨h1, h2⟩ := wings_processLine st s (hs s (by simp))
    rw [h1, h2]
    cases hw : hasSub s wingsKw with
    | false => simp [List.filter_cons, hw]
    | true =>
      cases hsm : st.smallWings.isEmpty with
      | true => simp [List.filter_cons, hw, hsm, wingsFill]
      | false =>
        cases hlg : st.largeWings.isEmpty with
        | true => simp [List.filter_cons, hw, hsm, hlg, wingsFill]
        | false => simp [List.filter_cons, hw, hsm, hlg, wingsFill]

/-! Helpers about `wingsFill` and last-match folds. -/

/-- A nonempty list is not `isEmpty`. -/
theorem isEmpty_false_of_ne_nil (l : Str) (h : l ≠ []) : l.isEmpty = false := by
  cases l with
  | nil => exact absurd rfl h
  | cons a t => rfl

/-- Once both wing slots are occupied, further wing matches are dropped. -/
theorem wingsFill_full (sm lg : Str) (h1 : sm.isEmpty = false) (h2 : lg.isEmpty = false)
    (ws : List Str) : wingsFill (sm, lg) ws = (sm, lg) := by
  induction ws with
  | nil => rfl
  | cons s t ih => simp [wingsFill, h1, h2, ih]

/-- Filling from two empty slots puts the first line in the small slot
and the second in the large slot; the rest are dropped. -/
theorem wingsFill_from_empty (ws : List Str) (h : ∀ s ∈ ws, s ≠ []) :
    wingsFill ([], []) ws = (ws.getD 0 [], ws.getD 1 []) := by
  cases ws with
  | nil => rfl
  | cons a t =>
    cases t with
    | nil => simp [wingsFill, List.getD]
    | cons b u =>
      have ha : a.isEmpty = false := isEmpty_false_of_ne_nil a (h a (by simp))
      have hb : b.isEmpty = false := isEmpty_false_of_ne_nil b (h b (by simp))
      simp [wingsFill, ha, hb, wingsFill_full a b ha hb, List.getD]

/-- A last-match fold only looks at the lines satisfying the predicate. -/
theorem foldl_opt_filter (p : Str → Prop) [DecidablePred p] (l : List Str) (a0 : Option Str) :
    l.foldl (fun a s => if p s then some s else a) a0 =
      (l.filter (fun s => decide (p s))).foldl (fun _ s => some s) a0 := by
  induction l generalizing a0 with
  | nil => rfl
  | cons s t ih =>
    by_cases h : p s
    · rw [List.foldl_cons, if_pos h, List.filter_cons_of_pos (by simpa using h),
        List.foldl_cons, ih]
    · rw [List.foldl_cons, if_neg h, List.filter_cons_of_neg (by simpa using h), ih]

/-- A value produced by a last-match fold is a member of the list and
satisfies the predicate, unless it was the initial value. -/
theorem foldl_opt_mem (p : Str → Prop) [DecidablePred p] (l : List Str) (a0 : Option Str)
    (t : Str) (h : l.foldl (fun a s => if p s then some s else a) a0 = some t) :
    (p t ∧ t ∈ l) ∨ a0 = some t := by
  induction l generalizing a0 with
  | nil => exact Or.inr h
  | cons s u ih =>
    rw [List.foldl_cons] at h
    rcases ih _ h with ⟨hp, hm⟩ | hinit
    · exact Or.inl ⟨hp, by simp [hm]⟩
    · by_cases hs : p s
      · rw [if_pos hs] at hinit
        have hts : t = s := (Option.some.inj hinit).symm
        exact Or.inl ⟨hts ▸ hs, by simp [hts]⟩
      · rw [if_neg hs] at hinit
        exact Or.inr hinit

/-- Two permuted lists of length at most one are equal. -/
theorem perm_eq_of_length_le_one {α : Type} {l1 l2 : List α} (h : l1.Perm l2)
    (hl : l1.length ≤ 1) : l1 = l2 := by
  cases l1 with
  | nil => exact (List.Perm.eq_nil h.symm).symm
  | cons a t =>
    cases t with
    | nil => exact (List.perm_singleton.mp h.symm).symm
    | cons b u => simp at hl

/-! Claim theorems. -/

/-- C1: for the empty input (a file with zero lines) the constructor
succeeds and every slot is empty, but `Print` then throws
`std::out_of_range` at the very first `_parts.at` lookup: the catch
handler runs (`caught = true`, a diagnostic goes to standard error) and
the characters actually written to standard output stop right after the
"Engine: " label, so no empty placeholder is rendered for the Engine,
Fuselage, Cabin or Armor slot. -/
theorem c1_empty_file_build_and_print :
    Spaceship.build [] =
      { engine := none, fuselage := none, cabin := none, armor := none,
        smallWings := [], largeWings := [], weapons := [[], [], [], []] } ∧
    (Spaceship.build []).Print =
      { out := "\nThis ship is loaded with:\n  Engine: ".data, caught := true } := by
  constructor <;> rfl

/-- C5: the fixed weapon array of a built ship always has exactly 4
entries: the first 4 weapon-matching lines of the (post-shuffle) input in
encounter order, padded with empty strings, every further weapon match
being dropped. -/
theorem c5_weapons_at_most_four (l : List Str) :
    (Spaceship.build l).weapons =
      (l.filter (fun s => hasSub s weaponKw)).take 4 ++
        List.replicate (4 - (l.filter (fun s => hasSub s weaponKw)).length) [] ∧
    (Spaceship.build l).weapons.length = 4 := by
  have hw : (Spaceship.build l).weapons =
      (l.filter (fun s => hasSub s weaponKw)).take 4 ++
        List.replicate (4 - (l.filter (fun s => hasSub s weaponKw)).length) [] := by
    unfold Spaceship.build finalizeShip
    rw [weaponParts_foldl]
    simp [initSt]
  refine ⟨hw, ?_⟩
  rw [hw, List.length_append, List.length_take, List.length_replicate]
  omega

/-- C3 counterexample: the line "enginearmor" contains both the "engine"
and the "armor" keyword, yet after construction only the Armor slot
holds it and the Engine slot is still absent, refuting the every-matching
-category semantics. -/
theorem c3_counterexample :
    hasSub "enginearmor".data engineKw = true ∧
    hasSub "enginearmor".data armorKw = true ∧
    (Spaceship.build ["enginearmor".data]).armor = some "enginearmor".data ∧
    (Spaceship.build ["enginearmor".data]).engine = none := by
  refine ⟨?_, ?_, ?_, ?_⟩ <;> decide

/-- C3 amended: a line matching several keywords is filed into the first
matching category of the keyword iteration order only, because the match
moves the line out (leaving it empty for the later tests); a line
containing both "armor" and "engine" (and not "weapon") lands in the
Armor slot alone and leaves every other slot empty. -/
theorem c3_first_match_only (s : Str) (hweap : hasSub s weaponKw = false)
    (harm : hasSub s armorKw = true) (heng : hasSub s engineKw = true) :
    Spaceship.build [s] =
      { engine := none, fuselage := none, cabin := none, armor := some s,
        smallWings := [], largeWings := [], weapons := [[], [], [], []] } := by
  have : Spaceship.build [s] = finalizeShip (processLine initSt s) := rfl
  rw [this, processLine_eq]
  simp [hweap, harm, finalizeShip, initSt, List.replicate]

/-- C3 witness: the amended behaviour at the concrete line "enginearmor". -/
theorem c3_first_match_only_witness :
    Spaceship.build ["enginearmor".data] =
      { engine := none, fuselage := none, cabin := none,
        armor := some "enginearmor".data,
        smallWings := [], largeWings := [], weapons := [[], [], [], []] } :=
  c3_first_match_only "enginearmor".data (by decide) (by decide) (by decide)

/-- C9: an empty input line matches no category keyword, so it is never
placed anywhere; a list of only empty lines builds exactly the same ship
as the empty list. -/
theorem c9_empty_lines_ignored (l : List Str) (h : ∀ s ∈ l, s = ([] : Str)) :
    (∀ kw ∈ part_types_list, hasSub [] kw.2 = false) ∧
    Spaceship.build l = Spaceship.build [] := by
  refine ⟨by decide, ?_⟩
  unfold Spaceship.build
  have hfold : l.foldl processLine initSt = initSt := by
    induction l with
    | nil => rfl
    | cons s t ih =>
      have hs : s = ([] : Str) := h s (by simp)
      have hstep : processLine initSt s = initSt := by
        subst hs
        unfold processLine
        rw [foldl_consumed _ _ (by decide)]
      rw [List.foldl_cons, hstep]
      exact ih (fun x hx => h x (by simp [hx]))
  rw [hfold]
  rfl

/-- C9 witness: two empty lines build the same ship as no lines. -/
theorem c9_empty_lines_ignored_witness :
    Spaceship.build [([] : Str), []] = Spaceship.build [] :=
  (c9_empty_lines_ignored [([] : Str), []] (by decide)).2

/-- C10: keyword classification is case-sensitive exact substring match,
so a line containing none of the six lowercase keywords (for example one
where a keyword appears only with different casing, such as "Engine" or
"WEAPON") matches no category and occupies no slot: removing it from the
input leaves the built ship unchanged. -/
theorem c10_case_sensitive (s : Str) (l1 l2 : List Str)
    (h : ∀ kw ∈ part_types_list, hasSub s kw.2 = false) :
    Spaceship.build (l1 ++ s :: l2) = Spaceship.build (l1 ++ l2) := by
  unfold Spaceship.build
  rw [List.foldl_append, List.foldl_append, List.foldl_cons]
  have hstep : processLine (l1.foldl processLine initSt) s = l1.foldl processLine initSt := by
    unfold processLine
    rw [foldl_no_match _ _ _ h]
  rw [hstep]

/-- C10 witness: the cased line "Engine" contains no lowercase keyword
and is classified nowhere, so it drops out of the build. -/
theorem c10_case_sensitive_witness :
    Spaceship.build ["Engine".data, "big engine".data] =
      Spaceship.build ["big engine".data] :=
  c10_case_sensitive "Engine".data [] ["big engine".data] (by decide)

set_option maxRecDepth 10000 in
/-- C2 counterexample: the weapons line never omits empty weapon slots.
For the ship built from five single-keyword lines (one per category plus
one weapon) the printed weapons list is "[laser weapon, , , ]": the three
empty array entries render as blank entries between commas.  And for the
example input of the claim, printing aborts with a caught exception at
the missing Fuselage slot, so the output contains no bracket at all, let
alone "[laser weapon]". -/
theorem c2_counterexample :
    (Spaceship.build ["an engine".data, "a fuselage".data, "a cabin".data, "an armor".data,
      "laser weapon".data]).Print.out =
      ("\nThis ship is loaded with:\n  Engine: an engine\n  Fuselage: a fuselage" ++
       "\n  Cabin: a cabin\n  Armor: an armor\n  Wings:\n    (small): \n    (large): " ++
       "\n  Weapons: [laser weapon, , , ]\n").data ∧
    hasSub (Spaceship.build ["an engine".data, "a fuselage".data, "a cabin".data,
      "an armor".data, "laser weapon".data]).Print.out "[laser weapon, , , ]".data = true ∧
    (Spaceship.build ["big engine".data, "steel armor".data, "laser weapon".data,
      "small wings".data]).Print.caught = true ∧
    hasSub (Spaceship.build ["big engine".data, "steel armor".data, "laser weapon".data,
      "small wings".data]).Print.out "[".data = false := by
  refine ⟨?_, ?_, ?_, ?_⟩ <;> decide

/-- C2 amended: the weapons list is only printed when all four
single-valued slots are present, and then it contains all four entries of
the fixed weapon array comma-separated inside brackets, empty entries
included (so unfilled weapon slots do render as blank entries); there is
no trailing comma after the fourth entry. -/
theorem c2_print_weapons_all_four (ship : Spaceship) (e f c a w0 w1 w2 w3 : Str)
    (he : ship.engine = some e) (hf : ship.fuselage = some f) (hc : ship.cabin = some c)
    (ha : ship.armor = some a) (hw : ship.weapons = [w0, w1, w2, w3]) :
    ship.Print =
      { out := "\nThis ship is loaded with:\n  Engine: ".data ++ e ++
          "\n  Fuselage: ".data ++ f ++ "\n  Cabin: ".data ++ c ++ "\n  Armor: ".data ++ a ++
          "\n  Wings:\n    (small): ".data ++ ship.smallWings ++ "\n    (large): ".data ++
          ship.largeWings ++ "\n  Weapons: [".data ++
          w0 ++ ", ".data ++ w1 ++ ", ".data ++ w2 ++ ", ".data ++ w3 ++ "]\n".data,
        caught := false } := by
  unfold Spaceship.Print
  rw [he, hf, hc, ha, hw]
  simp [weaponsRender, List.append_assoc]

set_option maxRecDepth 10000 in
/-- C2 witness: the amended rendering at a concrete ship whose weapon
array has one weapon and three empty entries. -/
theorem c2_print_weapons_all_four_witness :
    (Spaceship.build ["an engine".data, "a fuselage".data, "a cabin".data, "an armor".data,
      "laser weapon".data]).Print.caught = false := by
  rw [c2_print_weapons_all_four
    (Spaceship.build ["an engine".data, "a fuselage".data, "a cabin".data, "an armor".data,
      "laser weapon".data])
    "an engine".data "a fuselage".data "a cabin".data "an armor".data
    "laser weapon".data [] [] []
    (by decide) (by decide) (by decide) (by decide) (by decide)]

/-- Helper: the weapon array of a built ship, as a function of the input. -/
theorem build_weapons_eq (l : List Str) :
    (Spaceship.build l).weapons =
      (l.filter (fun s => hasSub s weaponKw)).take 4 ++
        List.replicate (4 - (l.filter (fun s => hasSub s weaponKw)).length) [] := by
  unfold Spaceship.build finalizeShip
  rw [weaponParts_foldl]
  simp [initSt]

/-- C6 counterexample: "armor wings" is the first (and only) wing-matching
line of its input, yet it is not assigned to the small-wing slot: the
Armor keyword is tested before Wings in the map iteration order and
consumes the line, so the small-wing slot stays empty and the Armor slot
holds the line. -/
theorem c6_counterexample :
    hasSub "armor wings".data wingsKw = true ∧
    (Spaceship.build ["armor wings".data]).smallWings = [] ∧
    (Spaceship.build ["armor wings".data]).armor = some "armor wings".data := by
  refine ⟨?_, ?_, ?_⟩ <;> decide

/-- C6 amended: restricted to lines whose only keyword match is "wings",
the first such line (in post-shuffle encounter order) fills the
small-wing slot, the second fills the large-wing slot, and all later
ones are dropped without error: no single-valued slot and no nonempty
weapon entry ever holds a wing-matching line.  (A wing-matching line
that also contains another keyword is instead consumed by the
earlier-tested Weapon or Armor keyword, or falls through to Cabin,
Fuselage or Engine when both wing slots are full.) -/
theorem c6_wings_first_two (l : List Str) (h : ∀ s ∈ l, wingsOnlyMatch s) :
    (Spaceship.build l).smallWings = (l.filter (fun s => hasSub s wingsKw)).getD 0 [] ∧
    (Spaceship.build l).largeWings = (l.filter (fun s => hasSub s wingsKw)).getD 1 [] ∧
    (∀ c : Part_Type, ∀ t : Str, getPart (l.foldl processLine initSt) c = some t →
      hasSub t wingsKw = false) ∧
    (∀ t : Str, t ∈ (Spaceship.build l).weapons → t ≠ [] → hasSub t wingsKw = false) := by
  have hwpair := wings_foldl l initSt h
  rw [show initSt.smallWings = ([] : Str) from rfl,
    show initSt.largeWings = ([] : Str) from rfl] at hwpair
  have hne : ∀ s ∈ l.filter (fun s => hasSub s wingsKw), s ≠ ([] : Str) := by
    intro s hsmem hnil
    have hsw := (List.mem_filter.mp hsmem).2
    subst hnil
    exact absurd hsw (by decide)
  rw [wingsFill_from_empty _ hne, Prod.mk.injEq] at hwpair
  have key : ∀ c : Part_Type,
      (c = Part_Type.Engine ∨ c = Part_Type.Fuselage ∨ c = Part_Type.Cabin ∨
        c = Part_Type.Armor) →
      ∀ t : Str, getPart (l.foldl processLine initSt) c = some t →
        hasSub t wingsKw = false := by
    intro c hc t ht
    rw [getPart_foldl l initSt h c hc] at ht
    rcases foldl_opt_mem _ l _ t ht with ⟨hp, hm⟩ | habs
    · cases hval : hasSub t wingsKw with
      | false => rfl
      | true =>
        obtain ⟨q1, q2, q3, q4, q5⟩ := h t hm hval
        unfold routeNoWings at hp
        rw [q1, q2, q3, q4, q5] at hp
        simp at hp
    · rcases hc with rfl | rfl | rfl | rfl <;> simp [getPart, initSt] at habs
  refine ⟨hwpair.1, hwpair.2, ?_, ?_⟩
  · intro c t
    cases c with
    | Engine => exact key _ (Or.inl rfl) t
    | Fuselage => exact key _ (Or.inr (Or.inl rfl)) t
    | Cabin => exact key _ (Or.inr (Or.inr (Or.inl rfl))) t
    | Armor => exact key _ (Or.inr (Or.inr (Or.inr rfl))) t
    | Wings => intro ht; simp [getPart] at ht
    | Weapon => intro ht; simp [getPart] at ht
  · intro t htmem htne
    rw [build_weapons_eq] at htmem
    rcases List.mem_append.mp htmem with hmem | hmem
    · have hmem2 : t ∈ l.filter (fun s => hasSub s weaponKw) := List.take_subset _ _ hmem
      obtain ⟨hml, hw⟩ := List.mem_filter.mp hmem2
      cases hval : hasSub t wingsKw with
      | false => rfl
      | true =>
        obtain ⟨q1, _, _, _, _⟩ := h t hml hval
        simp only [q1] at hw
        exact absurd hw Bool.false_ne_true
    · exact absurd (List.eq_of_mem_replicate hmem) htne

/-- C6 witness: three pure wing lines fill small then large, dropping the
third. -/
theorem c6_wings_first_two_witness :
    (Spaceship.build ["red wings".data, "blue wings".data,
      "green wings".data]).smallWings = "red wings".data ∧
    (Spaceship.build ["red wings".data, "blue wings".data,
      "green wings".data]).largeWings = "blue wings".data := by
  have h := c6_wings_first_two
    ["red wings".data, "blue wings".data, "green wings".data] (by decide)
  refine ⟨?_, ?_⟩
  · rw [h.1]; decide
  · rw [h.2.1]; decide

/-- Helper: substring facts transport along equalities of the haystack. -/
theorem hasSub_congr (h1 h2 n : Str) (he : h1 = h2) (hs : hasSub h2 n = true) :
    hasSub h1 n = true := he ▸ hs

/-- C7: for a path that does not exist, the run exits with code 1 and the
standard-error output contains both the offending path and the text
"does not exist". -/
theorem c7_missing_file (fs : FileSys) (fname : Str) (shuffle : List Str → List Str)
    (h : fs.pathExists = false) :
    (mainRun fs fname shuffle).exitCode = 1 ∧
    hasSub (mainRun fs fname shuffle).errOut fname = true ∧
    hasSub (mainRun fs fname shuffle).errOut "does not exist".data = true := by
  have hrun : mainRun fs fname shuffle =
      { exitCode := 1,
        errOut := "Exception: \"".data ++
          ("file: '".data ++ fname ++ "' does not exist!".data) ++ "\"\n".data } := by
    unfold mainRun fetch_parts_list
    rw [h]
    rfl
  rw [hrun]
  refine ⟨rfl, ?_, ?_⟩
  · refine hasSub_congr _
      (("Exception: \"".data ++ "file: '".data) ++ fname ++
        ("' does not exist!".data ++ "\"\n".data)) _ ?_ (hasSub_mid _ _ _)
    simp [List.append_assoc]
  · refine hasSub_congr _
      (("Exception: \"".data ++ ("file: '".data ++ fname ++ "' ".data)) ++
        "does not exist".data ++ ("!".data ++ "\"\n".data)) _ ?_ (hasSub_mid _ _ _)
    rw [show "' does not exist!".data =
      "' ".data ++ "does not exist".data ++ "!".data from by decide]
    simp [List.append_assoc]

/-- C7 witness: a concrete missing path. -/
theorem c7_missing_file_witness :
    (mainRun ⟨false, true, []⟩ "vehicle_parts.txt".data id).exitCode = 1 ∧
    hasSub (mainRun ⟨false, true, []⟩ "vehicle_parts.txt".data id).errOut
      "vehicle_parts.txt".data = true ∧
    hasSub (mainRun ⟨false, true, []⟩ "vehicle_parts.txt".data id).errOut
      "does not exist".data = true :=
  c7_missing_file ⟨false, true, []⟩ "vehicle_parts.txt".data id rfl

/-- C8: for a path that exists but cannot be opened for reading, the run
exits with code 1 and the standard-error output contains the text
"could not be opened". -/
theorem c8_unreadable_file (fs : FileSys) (fname : Str) (shuffle : List Str → List Str)
    (h1 : fs.pathExists = true) (h2 : fs.canOpen = false) :
    (mainRun fs fname shuffle).exitCode = 1 ∧
    hasSub (mainRun fs fname shuffle).errOut "could not be opened".data = true := by
  have hrun : mainRun fs fname shuffle =
      { exitCode := 1,
        errOut := "Exception: \"".data ++
          ("file: '".data ++ fname ++ "' could not be opened!".data) ++ "\"\n".data } := by
    unfold mainRun fetch_parts_list
    rw [h1, h2]
    rfl
  rw [hrun]
  refine ⟨rfl, ?_⟩
  refine hasSub_congr _
    (("Exception: \"".data ++ ("file: '".data ++ fname ++ "' ".data)) ++
      "could not be opened".data ++ ("!".data ++ "\"\n".data)) _ ?_ (hasSub_mid _ _ _)
  rw [show "' could not be opened!".data =
    "' ".data ++ "could not be opened".data ++ "!".data from by decide]
  simp [List.append_assoc]

/-- C8 witness: a concrete existing but unreadable path. -/
theorem c8_unreadable_file_witness :
    (mainRun ⟨true, false, []⟩ "vehicle_parts.txt".data id).exitCode = 1 ∧
    hasSub (mainRun ⟨true, false, []⟩ "vehicle_parts.txt".data id).errOut
      "could not be opened".data = true :=
  c8_unreadable_file ⟨true, false, []⟩ "vehicle_parts.txt".data id rfl rfl

/-- C4 counterexample: two permutations of the same two weapon-only lines
build ships whose weapon sequences differ (and no line matches any
single-valued category, so the tie-break exception of the claim does not
apply). -/
theorem c4_counterexample :
    (["a weapon".data, "b weapon".data] : List Str).Perm
      ["b weapon".data, "a weapon".data] ∧
    (Spaceship.build ["a weapon".data, "b weapon".data]).weapons =
      ["a weapon".data, "b weapon".data, [], []] ∧
    (Spaceship.build ["b weapon".data, "a weapon".data]).weapons =
      ["b weapon".data, "a weapon".data, [], []] ∧
    Spaceship.build ["a weapon".data, "b weapon".data] ≠
      Spaceship.build ["b weapon".data, "a weapon".data] ∧
    (Spaceship.build ["a weapon".data, "b weapon".data]).engine = none ∧
    (Spaceship.build ["a weapon".data, "b weapon".data]).fuselage = none ∧
    (Spaceship.build ["a weapon".data, "b weapon".data]).cabin = none ∧
    (Spaceship.build ["a weapon".data, "b weapon".data]).armor = none := by
  refine ⟨?_, ?_, ?_, ?_, ?_, ?_, ?_, ?_⟩ <;> decide

/-- C4 amended: permutation invariance holds for the single-valued slots
and the wing slots when no line matches "wings" and at most one line is
routed to each single-valued category, and for the weapon array up to
order when at most 4 lines match "weapon"; the order of the weapon
sequence (and, in general, wing assignment and overflow choices) depends
on the post-shuffle encounter order. -/
theorem c4_perm_invariance (l1 l2 : List Str) (hperm : l1.Perm l2)
    (hnw : ∀ s ∈ l1, hasSub s wingsKw = false)
    (huniq : ∀ c : Part_Type,
      (c = Part_Type.Engine ∨ c = Part_Type.Fuselage ∨ c = Part_Type.Cabin ∨
        c = Part_Type.Armor) →
      (l1.filter (fun s => decide (routeNoWings s = some c))).length ≤ 1)
    (hw4 : (l1.filter (fun s => hasSub s weaponKw)).length ≤ 4) :
    (Spaceship.build l1).engine = (Spaceship.build l2).engine ∧
    (Spaceship.build l1).fuselage = (Spaceship.build l2).fuselage ∧
    (Spaceship.build l1).cabin = (Spaceship.build l2).cabin ∧
    (Spaceship.build l1).armor = (Spaceship.build l2).armor ∧
    (Spaceship.build l1).smallWings = (Spaceship.build l2).smallWings ∧
    (Spaceship.build l1).largeWings = (Spaceship.build l2).largeWings ∧
    (Spaceship.build l1).weapons.Perm (Spaceship.build l2).weapons := by
  have hnw2 : ∀ s ∈ l2, hasSub s wingsKw = false :=
    fun s hx => hnw s (hperm.mem_iff.mpr hx)
  have hb1 : ∀ s ∈ l1, wingsOnlyMatch s := by
    intro s hx hwt
    rw [hnw s hx] at hwt
    exact absurd hwt Bool.false_ne_true
  have hb2 : ∀ s ∈ l2, wingsOnlyMatch s := by
    intro s hx hwt
    rw [hnw2 s hx] at hwt
    exact absurd hwt Bool.false_ne_true
  have hparts : ∀ c : Part_Type,
      (c = Part_Type.Engine ∨ c = Part_Type.Fuselage ∨ c = Part_Type.Cabin ∨
        c = Part_Type.Armor) →
      getPart (l1.foldl processLine initSt) c = getPart (l2.foldl processLine initSt) c := by
    intro c hc
    have hfe : l1.filter (fun s => decide (routeNoWings s = some c)) =
        l2.filter (fun s => decide (routeNoWings s = some c)) :=
      perm_eq_of_length_le_one (hperm.filter _) (huniq c hc)
    rw [getPart_foldl l1 initSt hb1 c hc, getPart_foldl l2 initSt hb2 c hc,
      foldl_opt_filter (fun s => routeNoWings s = some c) l1 _,
      foldl_opt_filter (fun s => routeNoWings s = some c) l2 _, hfe]
  have hwf1 := wings_foldl l1 initSt hb1
  have hwf2 := wings_foldl l2 initSt hb2
  have hfw1 : l1.filter (fun s => hasSub s wingsKw) = [] :=
    List.filter_eq_nil_iff.mpr (fun a ha => by simp [hnw a ha])
  have hfw2 : l2.filter (fun s => hasSub s wingsKw) = [] :=
    List.filter_eq_nil_iff.mpr (fun a ha => by simp [hnw2 a ha])
  rw [hfw1, show wingsFill (initSt.smallWings, initSt.largeWings) ([] : List Str) =
    (initSt.smallWings, initSt.largeWings) from rfl, Prod.mk.injEq] at hwf1
  rw [hfw2, show wingsFill (initSt.smallWings, initSt.largeWings) ([] : List Str) =
    (initSt.smallWings, initSt.largeWings) from rfl, Prod.mk.injEq] at hwf2
  have hfperm := hperm.filter (fun s => hasSub s weaponKw)
  have hlen : (l1.filter (fun s => hasSub s weaponKw)).length =
      (l2.filter (fun s => hasSub s weaponKw)).length := hfperm.length_eq
  have hw4' : (l2.filter (fun s => hasSub s weaponKw)).length ≤ 4 := hlen ▸ hw4
  refine ⟨hparts _ (Or.inl rfl), hparts _ (Or.inr (Or.inl rfl)),
    hparts _ (Or.inr (Or.inr (Or.inl rfl))), hparts _ (Or.inr (Or.inr (Or.inr rfl))),
    hwf1.1.trans hwf2.1.symm, hwf1.2.trans hwf2.2.symm, ?_⟩
  rw [build_weapons_eq l1, build_weapons_eq l2, List.take_of_length_le hw4,
    List.take_of_length_le hw4', hlen]
  exact hfperm.append_right _

/-- C4 witness: the amended invariance at a concrete pair of permuted
inputs. -/
theorem c4_perm_invariance_witness :
    (Spaceship.build ["big engine".data, "laser weapon".data]).engine =
      (Spaceship.build ["laser weapon".data, "big engine".data]).engine ∧
    (Spaceship.build ["big engine".data, "laser weapon".data]).fuselage =
      (Spaceship.build ["laser weapon".data, "big engine".data]).fuselage ∧
    (Spaceship.build ["big engine".data, "laser weapon".data]).cabin =
      (Spaceship.build ["laser weapon".data, "big engine".data]).cabin ∧
    (Spaceship.build ["big engine".data, "laser weapon".data]).armor =
      (Spaceship.build ["laser weapon".data, "big engine".data]).armor ∧
    (Spaceship.build ["big engine".data, "laser weapon".data]).smallWings =
      (Spaceship.build ["laser weapon".data, "big engine".data]).smallWings ∧
    (Spaceship.build ["big engine".data, "laser weapon".data]).largeWings =
      (Spaceship.build ["laser weapon".data, "big engine".data]).largeWings ∧
    (Spaceship.build ["big engine".data, "laser weapon".data]).weapons.Perm
      (Spaceship.build ["laser weapon".data, "big engine".data]).weapons :=
  c4_perm_invariance ["big engine".data, "laser weapon".data]
    ["laser weapon".data, "big engine".data]
    (by decide) (by decide) (fun c _ => by
      rcases c with _ | _ | _ | _ | _ | _ <;> decide) (by decide)
